import Mathlib

/-!
Verification of the Hybrid Authentication and On-Chain Entitlement Gateway.

Shallow embedding of the session cookie codec (server runtime and
constrained-sandbox runtime), the handshake verify endpoint, the nonce
consumption procedure, the entitlement resolver, the session reconciler,
and the tier guard. Strings are modelled as their UTF-8 byte sequences
(`List Nat`, each element below 256); the HMAC-SHA256 primitive provided by
the platform crypto APIs is modelled as an explicit function parameter
`mac : key bytes -> message bytes -> digest bytes`, shared by both runtimes
since both invoke the same platform primitive.
-/

namespace RefiStudio

set_option autoImplicit false

/-! ## Base64 alphabets and encoders

The server runtime calls `Buffer.toString('base64url')` (unpadded, url-safe);
the sandbox runtime builds `btoa` output (padded, standard alphabet) and then
rewrites `+` to `-`, `/` to `_` and strips trailing `=` characters, exactly as
`base64urlEncode` in `siwe-cookie-edge.ts` does. -/

/-- Standard base64 alphabet as ASCII codes: A-Z, a-z, 0-9, then 43 and 47. -/
def stdAlphabet : List Nat :=
  [65, 66, 67, 68, 69, 70, 71, 72, 73, 74, 75, 76, 77, 78, 79, 80, 81, 82,
   83, 84, 85, 86, 87, 88, 89, 90,
   97, 98, 99, 100, 101, 102, 103, 104, 105, 106, 107, 108, 109, 110, 111,
   112, 113, 114, 115, 116, 117, 118, 119, 120, 121, 122,
   48, 49, 50, 51, 52, 53, 54, 55, 56, 57, 43, 47]

/-- Url-safe base64 alphabet: as `stdAlphabet` but with 45 and 95 at the end. -/
def urlAlphabet : List Nat :=
  [65, 66, 67, 68, 69, 70, 71, 72, 73, 74, 75, 76, 77, 78, 79, 80, 81, 82,
   83, 84, 85, 86, 87, 88, 89, 90,
   97, 98, 99, 100, 101, 102, 103, 104, 105, 106, 107, 108, 109, 110, 111,
   112, 113, 114, 115, 116, 117, 118, 119, 120, 121, 122,
   48, 49, 50, 51, 52, 53, 54, 55, 56, 57, 45, 95]

/-- Standard-alphabet character for a 6-bit group. -/
def base64CharStd (i : Nat) : Nat := stdAlphabet.getD (i % 64) 65

/-- Url-alphabet character for a 6-bit group. -/
def base64CharUrl (i : Nat) : Nat := urlAlphabet.getD (i % 64) 65

/-- Unpadded url-safe base64, the behaviour of `Buffer.toString('base64url')`
used by `base64urlEncode` in `siwe-cookie.ts`. -/
def base64urlOfBytes : List Nat → List Nat
  | [] => []
  | [b1] => [base64CharUrl (b1 / 4), base64CharUrl (b1 % 4 * 16)]
  | [b1, b2] =>
    [base64CharUrl (b1 / 4), base64CharUrl (b1 % 4 * 16 + b2 / 16),
     base64CharUrl (b2 % 16 * 4)]
  | b1 :: b2 :: b3 :: rest =>
    base64CharUrl (b1 / 4) :: base64CharUrl (b1 % 4 * 16 + b2 / 16) ::
    base64CharUrl (b2 % 16 * 4 + b3 / 64) :: base64CharUrl (b3 % 64) ::
    base64urlOfBytes rest

/-- Padded standard base64, the behaviour of the platform `btoa` used by the
sandbox runtime. 61 is the ASCII code of the padding character. -/
def btoaBytes : List Nat → List Nat
  | [] => []
  | [b1] => [base64CharStd (b1 / 4), base64CharStd (b1 % 4 * 16), 61, 61]
  | [b1, b2] =>
    [base64CharStd (b1 / 4), base64CharStd (b1 % 4 * 16 + b2 / 16),
     base64CharStd (b2 % 16 * 4), 61]
  | b1 :: b2 :: b3 :: rest =>
    base64CharStd (b1 / 4) :: base64CharStd (b1 % 4 * 16 + b2 / 16) ::
    base64CharStd (b2 % 16 * 4 + b3 / 64) :: base64CharStd (b3 % 64) ::
    btoaBytes rest

/-- The character rewrite performed by `base64urlEncode` in
`siwe-cookie-edge.ts`: 43 becomes 45 and 47 becomes 95. -/
def base64UrlReplaceByte (b : Nat) : Nat :=
  if b = 43 then 45 else if b = 47 then 95 else b

/-- Removal of trailing padding characters, the regex replace of trailing
61-bytes in `siwe-cookie-edge.ts`. -/
def stripTrailingPad (l : List Nat) : List Nat :=
  (l.reverse.dropWhile (fun b => b = 61)).reverse

/-- The sandbox-runtime `base64urlEncode`: `btoa`, then the `+`, `/` rewrite,
then stripping trailing padding. -/
def base64urlEncodeEdge (l : List Nat) : List Nat :=
  stripTrailingPad ((btoaBytes l).map base64UrlReplaceByte)

/-! ### The two base64url encoders agree -/

theorem replace_std_eq_url (i : Nat) :
    base64UrlReplaceByte (base64CharStd i) = base64CharUrl i := by
  have h : i % 64 < 64 := Nat.mod_lt _ (by omega)
  have hall : ∀ j, j < 64 →
      base64UrlReplaceByte (stdAlphabet.getD j 65) = urlAlphabet.getD j 65 := by
    decide
  simpa [base64CharStd, base64CharUrl] using hall (i % 64) h

theorem base64CharUrl_ne_pad (i : Nat) : base64CharUrl i ≠ 61 := by
  have h : i % 64 < 64 := Nat.mod_lt _ (by omega)
  have hall : ∀ j, j < 64 → urlAlphabet.getD j 65 ≠ 61 := by decide
  simpa [base64CharUrl] using hall (i % 64) h

theorem base64CharUrl_ne_dot (i : Nat) : base64CharUrl i ≠ 46 := by
  have h : i % 64 < 64 := Nat.mod_lt _ (by omega)
  have hall : ∀ j, j < 64 → urlAlphabet.getD j 65 ≠ 46 := by decide
  simpa [base64CharUrl] using hall (i % 64) h

theorem replace_pad_eq : base64UrlReplaceByte 61 = 61 := by decide

theorem dropWhile_append_single (p : Nat → Bool) (a : Nat) (h : p a = false) :
    ∀ xs : List Nat, List.dropWhile p (xs ++ [a]) = List.dropWhile p xs ++ [a] := by
  intro xs
  induction xs with
  | nil => simp [List.dropWhile, h]
  | cons x xs ih =>
    by_cases hx : p x
    · simp [List.dropWhile, hx, ih]
    · simp [List.dropWhile, hx]

theorem stripTrailingPad_cons_ne (a : Nat) (l : List Nat) (h : a ≠ 61) :
    stripTrailingPad (a :: l) = a :: stripTrailingPad l := by
  have hpa : (fun b => decide (b = 61)) a = false := by
    simp [h]
  simp only [stripTrailingPad, List.reverse_cons]
  rw [dropWhile_append_single _ a hpa]
  simp

theorem base64urlEncodeEdge_eq_node (l : List Nat) :
    base64urlEncodeEdge l = base64urlOfBytes l := by
  induction l using base64urlOfBytes.induct with
  | case1 =>
    simp [base64urlEncodeEdge, btoaBytes, base64urlOfBytes, stripTrailingPad]
  | case2 b1 =>
    have e1 := replace_std_eq_url (b1 / 4)
    have e2 := replace_std_eq_url (b1 % 4 * 16)
    have n1 := base64CharUrl_ne_pad (b1 / 4)
    have n2 := base64CharUrl_ne_pad (b1 % 4 * 16)
    simp [base64urlEncodeEdge, btoaBytes, base64urlOfBytes, stripTrailingPad,
      e1, e2, replace_pad_eq, List.dropWhile, n1, n2]
  | case3 b1 b2 =>
    have e1 := replace_std_eq_url (b1 / 4)
    have e2 := replace_std_eq_url (b1 % 4 * 16 + b2 / 16)
    have e3 := replace_std_eq_url (b2 % 16 * 4)
    have n1 := base64CharUrl_ne_pad (b1 / 4)
    have n2 := base64CharUrl_ne_pad (b1 % 4 * 16 + b2 / 16)
    have n3 := base64CharUrl_ne_pad (b2 % 16 * 4)
    simp [base64urlEncodeEdge, btoaBytes, base64urlOfBytes, stripTrailingPad,
      e1, e2, e3, replace_pad_eq, List.dropWhile, n1, n2, n3]
  | case4 b1 b2 b3 rest ih =>
    have e1 := replace_std_eq_url (b1 / 4)
    have e2 := replace_std_eq_url (b1 % 4 * 16 + b2 / 16)
    have e3 := replace_std_eq_url (b2 % 16 * 4 + b3 / 64)
    have e4 := replace_std_eq_url (b3 % 64)
    calc base64urlEncodeEdge (b1 :: b2 :: b3 :: rest)
        = stripTrailingPad (base64CharUrl (b1 / 4) ::
            base64CharUrl (b1 % 4 * 16 + b2 / 16) ::
            base64CharUrl (b2 % 16 * 4 + b3 / 64) :: base64CharUrl (b3 % 64) ::
            (btoaBytes rest).map base64UrlReplaceByte) := by
          simp [base64urlEncodeEdge, btoaBytes, e1, e2, e3, e4]
      _ = base64CharUrl (b1 / 4) :: base64CharUrl (b1 % 4 * 16 + b2 / 16) ::
            base64CharUrl (b2 % 16 * 4 + b3 / 64) :: base64CharUrl (b3 % 64) ::
            stripTrailingPad ((btoaBytes rest).map base64UrlReplaceByte) := by
          rw [stripTrailingPad_cons_ne _ _ (base64CharUrl_ne_pad _),
            stripTrailingPad_cons_ne _ _ (base64CharUrl_ne_pad _),
            stripTrailingPad_cons_ne _ _ (base64CharUrl_ne_pad _),
            stripTrailingPad_cons_ne _ _ (base64CharUrl_ne_pad _)]
      _ = base64urlOfBytes (b1 :: b2 :: b3 :: rest) := by
          rw [show stripTrailingPad ((btoaBytes rest).map base64UrlReplaceByte)
              = base64urlOfBytes rest from ih]
          simp [base64urlOfBytes]

/-! ### Base64url decoding

Models the forgiving base64url decoder of `Buffer.from(value, 'base64url')`:
characters outside the alphabet are skipped, then 6-bit groups are packed
back into bytes, dropping incomplete trailing bits. -/

/-- Index of a byte in the url alphabet, if any. -/
def base64ValAux (b : Nat) : List Nat → Nat → Option Nat
  | [], _ => none
  | c :: rest, i => if b = c then some i else base64ValAux b rest (i + 1)

/-- Decoded 6-bit value of a url-alphabet character. -/
def base64Val (b : Nat) : Option Nat := base64ValAux b urlAlphabet 0

/-- Packing of 6-bit groups back into bytes. -/
def base64Group : List Nat → List Nat
  | c1 :: c2 :: c3 :: c4 :: rest =>
    (c1 * 4 + c2 / 16) :: (c2 % 16 * 16 + c3 / 4) :: (c3 % 4 * 64 + c4) ::
    base64Group rest
  | [c1, c2] => [c1 * 4 + c2 / 16]
  | [c1, c2, c3] => [c1 * 4 + c2 / 16, c2 % 16 * 16 + c3 / 4]
  | _ => []

/-- Base64url decoding to bytes, the behaviour of
`Buffer.from(input, 'base64url')` in `base64urlDecodeToString`. -/
def base64urlDecodeBytes (l : List Nat) : List Nat :=
  base64Group (l.filterMap base64Val)

theorem base64Val_char (i : Nat) (h : i < 64) :
    base64Val (base64CharUrl i) = some i := by
  have hall : ∀ j, j < 64 → base64Val (urlAlphabet.getD j 65) = some j := by decide
  have : i % 64 = i := Nat.mod_eq_of_lt h
  simpa [base64CharUrl, this] using hall i h

theorem base64url_decode_encode (l : List Nat) (h : ∀ b ∈ l, b < 256) :
    base64urlDecodeBytes (base64urlOfBytes l) = l := by
  induction l using base64urlOfBytes.induct with
  | case1 => rfl
  | case2 b1 =>
    have hb1 : b1 < 256 := h b1 (by simp)
    have v1 := base64Val_char (b1 / 4) (by omega)
    have v2 := base64Val_char (b1 % 4 * 16) (by omega)
    simp [base64urlDecodeBytes, base64urlOfBytes, v1, v2, base64Group]
    omega
  | case3 b1 b2 =>
    have hb1 : b1 < 256 := h b1 (by simp)
    have hb2 : b2 < 256 := h b2 (by simp)
    have v1 := base64Val_char (b1 / 4) (by omega)
    have v2 := base64Val_char (b1 % 4 * 16 + b2 / 16) (by omega)
    have v3 := base64Val_char (b2 % 16 * 4) (by omega)
    simp [base64urlDecodeBytes, base64urlOfBytes, v1, v2, v3, base64Group]
    omega
  | case4 b1 b2 b3 rest ih =>
    have hb1 : b1 < 256 := h b1 (by simp)
    have hb2 : b2 < 256 := h b2 (by simp)
    have hb3 : b3 < 256 := h b3 (by simp)
    have hrest : ∀ b ∈ rest, b < 256 := fun b hb => h b (by simp [hb])
    have v1 := base64Val_char (b1 / 4) (by omega)
    have v2 := base64Val_char (b1 % 4 * 16 + b2 / 16) (by omega)
    have v3 := base64Val_char (b2 % 16 * 4 + b3 / 64) (by omega)
    have v4 := base64Val_char (b3 % 64) (by omega)
    have htail := ih hrest
    simp only [base64urlDecodeBytes] at htail
    simp only [base64urlDecodeBytes, base64urlOfBytes, List.filterMap_cons,
      v1, v2, v3, v4, base64Group, htail]
    simp only [List.cons.injEq]
    refine ⟨by omega, by omega, by omega, trivial⟩

theorem base64url_encode_injective (a b : List Nat)
    (ha : ∀ x ∈ a, x < 256) (hb : ∀ x ∈ b, x < 256)
    (h : base64urlOfBytes a = base64urlOfBytes b) : a = b := by
  have := congrArg base64urlDecodeBytes h
  rwa [base64url_decode_encode a ha, base64url_decode_encode b hb] at this

/-! ## The session cookie payload and its JSON form

`SiweCookiePayload` is the `{ uid, addr, iat, exp }` interface of
`siwe-cookie.ts`. `JSON.stringify` on such an object emits the fields in
declaration order; `jsonOfPayload` reproduces its output at the byte level,
including string escaping. `parsePayloadJson` models `JSON.parse` restricted
to this canonical document shape, with full escape handling. -/

structure SiweCookiePayload where
  uid : List Nat
  addr : List Nat
  iat : Nat
  exp : Nat
deriving DecidableEq, Repr

/-- ASCII code of a hexadecimal digit (lowercase letters, as emitted by
`JSON.stringify` unicode escapes). -/
def hexDigitChar (d : Nat) : Nat := if d < 10 then 48 + d else 87 + d

/-- Value of a hexadecimal digit byte. -/
def hexVal (b : Nat) : Option Nat :=
  if 48 ≤ b ∧ b ≤ 57 then some (b - 48)
  else if 97 ≤ b ∧ b ≤ 102 then some (b - 87)
  else if 65 ≤ b ∧ b ≤ 70 then some (b - 55)
  else none

/-- The escape `JSON.stringify` applies to one string byte: quote and
backslash get two-byte escapes, the five short control escapes are used where
they exist, remaining control bytes become `\u00xy`, everything else is
emitted literally. -/
def escByte (b : Nat) : List Nat :=
  if b = 34 then [92, 34]
  else if b = 92 then [92, 92]
  else if b = 8 then [92, 98]
  else if b = 9 then [92, 116]
  else if b = 10 then [92, 110]
  else if b = 12 then [92, 102]
  else if b = 13 then [92, 114]
  else if b < 32 then [92, 117, 48, 48, hexDigitChar (b / 16), hexDigitChar (b % 16)]
  else [b]

/-- JSON string escaping over a whole byte string. -/
def escapeJsonString (l : List Nat) : List Nat :=
  l.foldr (fun b acc => escByte b ++ acc) []

/-- Decimal digits of a positive number, most significant first. The first
argument is fuel, always at least the number, so the recursion is structural
and computes by kernel reduction. -/
def toDecFuel : Nat → Nat → List Nat → List Nat
  | 0, _, acc => acc
  | _ + 1, 0, acc => acc
  | fuel + 1, n + 1, acc => toDecFuel fuel ((n + 1) / 10) ((48 + (n + 1) % 10) :: acc)

/-- Decimal representation of a number, as `JSON.stringify` emits it. -/
def decBytes (n : Nat) : List Nat := if n = 0 then [48] else toDecFuel n n []

/-- Digit test for a byte. -/
def isDigitByte (b : Nat) : Bool := 48 ≤ b && b ≤ 57

/-- Longest digit prefix and the remaining bytes. -/
def takeDigits : List Nat → (List Nat × List Nat)
  | [] => ([], [])
  | b :: rest =>
    if isDigitByte b then
      let p := takeDigits rest
      (b :: p.1, p.2)
    else ([], b :: rest)

/-- Numeric value of a digit string. -/
def digitsToNat (l : List Nat) : Nat := l.foldl (fun acc d => acc * 10 + (d - 48)) 0

/-- Parse of a decimal number off the front of the input. -/
def parseNatBytes (l : List Nat) : Option (Nat × List Nat) :=
  match takeDigits l with
  | ([], _) => none
  | (ds, rest) => some (digitsToNat ds, rest)

/-- Cons a byte onto the string being accumulated by the string parser. -/
def consByte (b : Nat) : Option (List Nat × List Nat) → Option (List Nat × List Nat)
  | some (s, r) => some (b :: s, r)
  | none => none

/-- Parse of a JSON string body (after the opening quote), consuming the
closing quote and returning the decoded bytes plus the remaining input. -/
def parseJsonStringBody : List Nat → Option (List Nat × List Nat)
  | [] => none
  | b :: rest =>
    if b = 34 then some ([], rest)
    else if b = 92 then
      match rest with
      | [] => none
      | e :: rest2 =>
        if e = 34 then consByte 34 (parseJsonStringBody rest2)
        else if e = 92 then consByte 92 (parseJsonStringBody rest2)
        else if e = 47 then consByte 47 (parseJsonStringBody rest2)
        else if e = 98 then consByte 8 (parseJsonStringBody rest2)
        else if e = 116 then consByte 9 (parseJsonStringBody rest2)
        else if e = 110 then consByte 10 (parseJsonStringBody rest2)
        else if e = 102 then consByte 12 (parseJsonStringBody rest2)
        else if e = 114 then consByte 13 (parseJsonStringBody rest2)
        else if e = 117 then
          match rest2 with
          | h1 :: h2 :: h3 :: h4 :: rest3 =>
            match hexVal h1, hexVal h2, hexVal h3, hexVal h4 with
            | some v1, some v2, some v3, some v4 =>
              consByte (v1 * 4096 + v2 * 256 + v3 * 16 + v4) (parseJsonStringBody rest3)
            | _, _, _, _ => none
          | _ => none
        else none
    else consByte b (parseJsonStringBody rest)

/-- Byte form of the literal characters `\x7b"uid":"`. -/
def litUidOpen : List Nat := [123, 34, 117, 105, 100, 34, 58, 34]

/-- Byte form of the literal characters `,"addr":"`. -/
def litAddrKey : List Nat := [44, 34, 97, 100, 100, 114, 34, 58, 34]

/-- Byte form of the literal characters `,"iat":`. -/
def litIatKey : List Nat := [44, 34, 105, 97, 116, 34, 58]

/-- Byte form of the literal characters `,"exp":`. -/
def litExpKey : List Nat := [44, 34, 101, 120, 112, 34, 58]

/-- The bytes `JSON.stringify` produces for a `SiweCookiePayload`. -/
def jsonOfPayload (p : SiweCookiePayload) : List Nat :=
  litUidOpen ++ escapeJsonString p.uid ++ [34] ++
  litAddrKey ++ escapeJsonString p.addr ++ [34] ++
  litIatKey ++ decBytes p.iat ++
  litExpKey ++ decBytes p.exp ++ [125]

/-- Consumption of an expected literal prefix. -/
def dropLit : List Nat → List Nat → Option (List Nat)
  | [], l => some l
  | _ :: _, [] => none
  | c :: cs, b :: bs => if b = c then dropLit cs bs else none

/-- Parse of the canonical payload document, the behaviour of `JSON.parse`
followed by the `uid`, `addr`, `iat`, `exp` field reads in
`decodeAndVerifySiweCookie` on documents of the canonical shape this codec
itself produces; any other input is rejected. -/
def parsePayloadJson (l : List Nat) : Option SiweCookiePayload :=
  (dropLit litUidOpen l).bind fun r1 =>
  (parseJsonStringBody r1).bind fun pu =>
  (dropLit litAddrKey pu.2).bind fun r3 =>
  (parseJsonStringBody r3).bind fun pa =>
  (dropLit litIatKey pa.2).bind fun r5 =>
  (parseNatBytes r5).bind fun pi =>
  (dropLit litExpKey pi.2).bind fun r7 =>
  (parseNatBytes r7).bind fun pe =>
  if pe.2 = [125] then some ⟨pu.1, pa.1, pi.1, pe.1⟩ else none

/-! ### The canonical parse inverts the canonical print -/

theorem toDecFuel_append : ∀ (fuel n : Nat) (acc : List Nat), n ≤ fuel →
    toDecFuel fuel n acc = toDecFuel fuel n [] ++ acc := by
  intro fuel
  induction fuel with
  | zero =>
    intro n acc hn
    have : n = 0 := by omega
    subst this
    simp [toDecFuel]
  | succ fuel ih =>
    intro n acc hn
    match n with
    | 0 => simp [toDecFuel]
    | m + 1 =>
      have hq : (m + 1) / 10 ≤ fuel := by
        have := Nat.div_lt_self (Nat.succ_pos m) (show 1 < 10 by omega)
        omega
      simp only [toDecFuel]
      rw [ih _ ((48 + (m + 1) % 10) :: acc) hq, ih _ [48 + (m + 1) % 10] hq]
      simp

theorem digitsToNat_append_digit (xs : List Nat) (d : Nat) :
    digitsToNat (xs ++ [d]) = digitsToNat xs * 10 + (d - 48) := by
  simp [digitsToNat, List.foldl_append]

theorem digitsToNat_toDecFuel : ∀ (fuel n : Nat), n ≤ fuel →
    digitsToNat (toDecFuel fuel n []) = n := by
  intro fuel
  induction fuel with
  | zero =>
    intro n hn
    have : n = 0 := by omega
    subst this
    simp [toDecFuel, digitsToNat]
  | succ fuel ih =>
    intro n hn
    match n with
    | 0 => simp [toDecFuel, digitsToNat]
    | m + 1 =>
      have hq : (m + 1) / 10 ≤ fuel := by
        have := Nat.div_lt_self (Nat.succ_pos m) (show 1 < 10 by omega)
        omega
      simp only [toDecFuel]
      rw [toDecFuel_append _ _ _ hq, digitsToNat_append_digit, ih _ hq]
      omega

theorem toDecFuel_digits : ∀ (fuel n : Nat), n ≤ fuel →
    ∀ b ∈ toDecFuel fuel n [], isDigitByte b = true := by
  intro fuel
  induction fuel with
  | zero =>
    intro n hn
    have : n = 0 := by omega
    subst this
    simp [toDecFuel]
  | succ fuel ih =>
    intro n hn
    match n with
    | 0 => simp [toDecFuel]
    | m + 1 =>
      have hq : (m + 1) / 10 ≤ fuel := by
        have := Nat.div_lt_self (Nat.succ_pos m) (show 1 < 10 by omega)
        omega
      simp only [toDecFuel]
      rw [toDecFuel_append _ _ _ hq]
      intro b hb
      rcases List.mem_append.mp hb with h | h
      · exact ih _ hq b h
      · have hbv : b = 48 + (m + 1) % 10 := by simpa using h
        have : (m + 1) % 10 < 10 := Nat.mod_lt _ (by omega)
        simp [isDigitByte]
        omega

theorem decBytes_digits (n : Nat) : ∀ b ∈ decBytes n, isDigitByte b = true := by
  by_cases h : n = 0
  · subst h; simp [decBytes]; decide
  · simpa [decBytes, h] using toDecFuel_digits n n (Nat.le_refl n)

theorem decBytes_ne_nil (n : Nat) : decBytes n ≠ [] := by
  by_cases h : n = 0
  · subst h; simp [decBytes]
  · match n, h with
    | m + 1, _ =>
      have hq : (m + 1) / 10 ≤ m := by
        have := Nat.div_lt_self (Nat.succ_pos m) (show 1 < 10 by omega)
        omega
      simp only [decBytes, if_neg (by omega : ¬ m + 1 = 0), toDecFuel]
      rw [toDecFuel_append _ _ _ hq]
      simp

theorem digitsToNat_decBytes (n : Nat) : digitsToNat (decBytes n) = n := by
  by_cases h : n = 0
  · subst h; simp [decBytes, digitsToNat]
  · simp only [decBytes, if_neg h]
    exact digitsToNat_toDecFuel n n (Nat.le_refl n)

theorem takeDigits_append (ds rest : List Nat)
    (h1 : ∀ b ∈ ds, isDigitByte b = true)
    (h2 : ∀ b, rest.head? = some b → isDigitByte b = false) :
    takeDigits (ds ++ rest) = (ds, rest) := by
  induction ds with
  | nil =>
    match rest with
    | [] => simp [takeDigits]
    | b :: r => simp [takeDigits, h2 b rfl]
  | cons d ds ih =>
    have hd : isDigitByte d = true := h1 d (by simp)
    have hds : ∀ b ∈ ds, isDigitByte b = true := fun b hb => h1 b (by simp [hb])
    simp [takeDigits, hd, ih hds]

theorem parseNatBytes_dec (n : Nat) (rest : List Nat)
    (h2 : ∀ b, rest.head? = some b → isDigitByte b = false) :
    parseNatBytes (decBytes n ++ rest) = some (n, rest) := by
  rw [parseNatBytes, takeDigits_append _ _ (decBytes_digits n) h2]
  simp [decBytes_ne_nil n, digitsToNat_decBytes n]

theorem hexVal_hexDigitChar (d : Nat) (h : d < 16) :
    hexVal (hexDigitChar d) = some d := by
  by_cases h10 : d < 10
  · rw [hexDigitChar, if_pos h10, hexVal,
      if_pos (⟨by omega, by omega⟩ : 48 ≤ 48 + d ∧ 48 + d ≤ 57)]
    simp
  · rw [hexDigitChar, if_neg h10, hexVal,
      if_neg (by omega : ¬ (48 ≤ 87 + d ∧ 87 + d ≤ 57)),
      if_pos (⟨by omega, by omega⟩ : 97 ≤ 87 + d ∧ 87 + d ≤ 102)]
    simp only [Option.some.injEq]
    omega

theorem escapeJsonString_cons (b : Nat) (s : List Nat) :
    escapeJsonString (b :: s) = escByte b ++ escapeJsonString s := by
  simp [escapeJsonString]

theorem hexVal_48 : hexVal 48 = some 0 := by decide

theorem parseJsonStringBody_escape (s rest : List Nat) (h : ∀ b ∈ s, b < 256) :
    parseJsonStringBody (escapeJsonString s ++ 34 :: rest) = some (s, rest) := by
  induction s with
  | nil =>
    rw [show escapeJsonString [] ++ 34 :: rest = 34 :: rest by simp [escapeJsonString]]
    rw [parseJsonStringBody.eq_def]
    simp
  | cons b s ih =>
    have hb : b < 256 := h b (by simp)
    have hs : ∀ x ∈ s, x < 256 := fun x hx => h x (by simp [hx])
    have ihs := ih hs
    rw [escapeJsonString_cons, List.append_assoc]
    by_cases c34 : b = 34
    · subst c34
      rw [show escByte 34 = [92, 34] from rfl]
      rw [List.cons_append, List.cons_append, List.nil_append,
        parseJsonStringBody.eq_def]
      simp [consByte, ihs]
    by_cases c92 : b = 92
    · subst c92
      rw [show escByte 92 = [92, 92] from rfl]
      rw [List.cons_append, List.cons_append, List.nil_append,
        parseJsonStringBody.eq_def]
      simp [consByte, ihs]
    by_cases c8 : b = 8
    · subst c8
      rw [show escByte 8 = [92, 98] from rfl]
      rw [List.cons_append, List.cons_append, List.nil_append,
        parseJsonStringBody.eq_def]
      simp [consByte, ihs]
    by_cases c9 : b = 9
    · subst c9
      rw [show escByte 9 = [92, 116] from rfl]
      rw [List.cons_append, List.cons_append, List.nil_append,
        parseJsonStringBody.eq_def]
      simp [consByte, ihs]
    by_cases c10 : b = 10
    · subst c10
      rw [show escByte 10 = [92, 110] from rfl]
      rw [List.cons_append, List.cons_append, List.nil_append,
        parseJsonStringBody.eq_def]
      simp [consByte, ihs]
    by_cases c12 : b = 12
    · subst c12
      rw [show escByte 12 = [92, 102] from rfl]
      rw [List.cons_append, List.cons_append, List.nil_append,
        parseJsonStringBody.eq_def]
      simp [consByte, ihs]
    by_cases c13 : b = 13
    · subst c13
      rw [show escByte 13 = [92, 114] from rfl]
      rw [List.cons_append, List.cons_append, List.nil_append,
        parseJsonStringBody.eq_def]
      simp [consByte, ihs]
    by_cases clt : b < 32
    · have e1 : escByte b = [92, 117, 48, 48, hexDigitChar (b / 16), hexDigitChar (b % 16)] := by
        simp [escByte, c34, c92, c8, c9, c10, c12, c13, clt]
      have hv1 : hexVal (hexDigitChar (b / 16)) = some (b / 16) :=
        hexVal_hexDigitChar _ (by omega)
      have hv2 : hexVal (hexDigitChar (b % 16)) = some (b % 16) :=
        hexVal_hexDigitChar _ (by omega)
      have hval : (0 : Nat) * 4096 + 0 * 256 + b / 16 * 16 + b % 16 = b := by omega
      rw [e1]
      rw [List.cons_append, List.cons_append, List.cons_append, List.cons_append,
        List.cons_append, List.cons_append, List.nil_append,
        parseJsonStringBody.eq_def]
      simp [hexVal_48, hv1, hv2, hval, consByte, ihs]
      omega
    · have e1 : escByte b = [b] := by
        simp [escByte, c34, c92, c8, c9, c10, c12, c13, clt]
      rw [e1, List.cons_append, List.nil_append, parseJsonStringBody.eq_def]
      simp [c34, c92, consByte, ihs]

theorem dropLit_append (lit rest : List Nat) : dropLit lit (lit ++ rest) = some rest := by
  induction lit with
  | nil => simp [dropLit]
  | cons c cs ih => simp [dropLit, ih]

theorem litExpKey_head_not_digit (x : List Nat) :
    ∀ b, (litExpKey ++ x).head? = some b → isDigitByte b = false := by
  intro b hb
  simp [litExpKey] at hb
  subst hb
  decide

theorem closing_head_not_digit :
    ∀ b, ([125] : List Nat).head? = some b → isDigitByte b = false := by
  intro b hb
  simp at hb
  subst hb
  decide

theorem parsePayloadJson_jsonOfPayload (p : SiweCookiePayload)
    (hu : ∀ b ∈ p.uid, b < 256) (ha : ∀ b ∈ p.addr, b < 256) :
    parsePayloadJson (jsonOfPayload p) = some p := by
  have hshape : jsonOfPayload p = litUidOpen ++
      (escapeJsonString p.uid ++ 34 :: (litAddrKey ++
        (escapeJsonString p.addr ++ 34 :: (litIatKey ++
          (decBytes p.iat ++ (litExpKey ++ (decBytes p.exp ++ [125]))))))) := by
    simp [jsonOfPayload]
  have hnat1 := parseNatBytes_dec p.iat (litExpKey ++ (decBytes p.exp ++ [125]))
    (litExpKey_head_not_digit _)
  have hnat2 := parseNatBytes_dec p.exp [125] closing_head_not_digit
  rw [hshape]
  simp only [parsePayloadJson, dropLit_append, Option.some_bind,
    parseJsonStringBody_escape _ _ hu, parseJsonStringBody_escape _ _ ha,
    hnat1, hnat2]
  simp

/-! ### Well-formedness of the canonical bytes -/

theorem hexDigitChar_lt (d : Nat) (h : d < 16) : hexDigitChar d < 256 := by
  simp only [hexDigitChar]
  split_ifs <;> omega

theorem escByte_lt (b : Nat) (h : b < 256) : ∀ x ∈ escByte b, x < 256 := by
  intro x hx
  simp only [escByte] at hx
  split_ifs at hx with c1 c2 c3 c4 c5 c6 c7 c8
  · simp at hx; omega
  · simp at hx; omega
  · simp at hx; omega
  · simp at hx; omega
  · simp at hx; omega
  · simp at hx; omega
  · simp at hx; omega
  · simp only [List.mem_cons, List.not_mem_nil, or_false] at hx
    rcases hx with rfl | rfl | rfl | rfl | rfl | rfl
    · omega
    · omega
    · omega
    · omega
    · exact hexDigitChar_lt _ (by omega)
    · exact hexDigitChar_lt _ (by omega)
  · simp at hx; omega

theorem escapeJsonString_lt (l : List Nat) (h : ∀ b ∈ l, b < 256) :
    ∀ x ∈ escapeJsonString l, x < 256 := by
  induction l with
  | nil => simp [escapeJsonString]
  | cons b s ih =>
    rw [escapeJsonString_cons]
    intro x hx
    rcases List.mem_append.mp hx with h1 | h1
    · exact escByte_lt b (h b (by simp)) x h1
    · exact ih (fun y hy => h y (by simp [hy])) x h1

theorem decBytes_lt (n : Nat) : ∀ b ∈ decBytes n, b < 256 := by
  intro b hb
  have := decBytes_digits n b hb
  simp [isDigitByte] at this
  omega

theorem jsonOfPayload_lt (p : SiweCookiePayload)
    (hu : ∀ b ∈ p.uid, b < 256) (ha : ∀ b ∈ p.addr, b < 256) :
    ∀ b ∈ jsonOfPayload p, b < 256 := by
  intro b hb
  have hlit1 : ∀ x ∈ litUidOpen, x < 256 := by decide
  have hlit2 : ∀ x ∈ litAddrKey, x < 256 := by decide
  have hlit3 : ∀ x ∈ litIatKey, x < 256 := by decide
  have hlit4 : ∀ x ∈ litExpKey, x < 256 := by decide
  have hq : ∀ x ∈ ([34] : List Nat), x < 256 := by decide
  have hc : ∀ x ∈ ([125] : List Nat), x < 256 := by decide
  simp only [jsonOfPayload, List.append_assoc, List.mem_append] at hb
  rcases hb with h | h | h | h | h | h | h | h | h | h | h
  · exact hlit1 b h
  · exact escapeJsonString_lt _ hu b h
  · exact hq b h
  · exact hlit2 b h
  · exact escapeJsonString_lt _ ha b h
  · exact hq b h
  · exact hlit3 b h
  · exact decBytes_lt _ b h
  · exact hlit4 b h
  · exact decBytes_lt _ b h
  · exact hc b h

/-! ## The session cookie codec

`siwe-cookie.ts` (server runtime, Node crypto) and `siwe-cookie-edge.ts`
(constrained sandbox, Web Crypto). Both derive their signing key from the
same environment variables: an explicit `INTERNAL_API_SECRET` of length at
least 32, otherwise an HMAC of `BETTER_AUTH_SECRET` (falling back to
`ENCRYPTION_KEY`) over a fixed domain-separation string. Environment
variables are byte strings; an unset variable is the empty string. -/

/-- The HMAC-SHA256 platform primitive: key bytes and message bytes to
digest bytes. Both runtimes call the same primitive. -/
abbrev MacFn := List Nat → List Nat → List Nat

/-- The secret configuration read from the environment. -/
structure SecretEnv where
  internalApiSecret : List Nat
  betterAuthSecret : List Nat
  encryptionKey : List Nat
deriving DecidableEq

/-- Byte form of the domain-separation string `sim-internal-api-secret-v1`. -/
def domainSepBytes : List Nat :=
  [115, 105, 109, 45, 105, 110, 116, 101, 114, 110, 97, 108, 45, 97, 112,
   105, 45, 115, 101, 99, 114, 101, 116, 45, 118, 49]

/-- The `BETTER_AUTH_SECRET || ENCRYPTION_KEY || ''` fallback chain. -/
def fallbackBaseSecret (env : SecretEnv) : List Nat :=
  if env.betterAuthSecret ≠ [] then env.betterAuthSecret else env.encryptionKey

/-- The server-runtime `getInternalApiSecretKey` of `internal-secret.ts`:
prefer an explicit `INTERNAL_API_SECRET` of length at least 32, otherwise
derive `HMAC-SHA256(base, 'sim-internal-api-secret-v1')`. -/
def getInternalApiSecretKey (mac : MacFn) (env : SecretEnv) : List Nat :=
  if 32 ≤ env.internalApiSecret.length then env.internalApiSecret
  else mac (fallbackBaseSecret env) domainSepBytes

/-- The sandbox-runtime `deriveInternalKeyBytes` of `siwe-cookie-edge.ts`:
the same preference order and the same derivation. -/
def deriveInternalKeyBytesEdge (mac : MacFn) (env : SecretEnv) : List Nat :=
  if 32 ≤ env.internalApiSecret.length then env.internalApiSecret
  else mac (fallbackBaseSecret env) domainSepBytes

/-- The server-runtime `sign` helper of `siwe-cookie.ts`. -/
def signCookie (mac : MacFn) (env : SecretEnv) (input : List Nat) : List Nat :=
  base64urlOfBytes (mac (getInternalApiSecretKey mac env) input)

/-- The server-runtime `encodeSignedSiweCookie` of `siwe-cookie.ts`:
`base64url(JSON(payload)) ++ "." ++ base64url(HMAC(key, payloadB64))`.
46 is the ASCII code of the dot. -/
def encodeSignedSiweCookie (mac : MacFn) (env : SecretEnv)
    (p : SiweCookiePayload) : List Nat :=
  let payloadB64 := base64urlOfBytes (jsonOfPayload p)
  payloadB64 ++ 46 :: signCookie mac env payloadB64

/-- The sandbox-runtime `signPayloadB64` of `siwe-cookie-edge.ts`. -/
def signPayloadB64Edge (mac : MacFn) (key input : List Nat) : List Nat :=
  base64urlEncodeEdge (mac key input)

/-- The sandbox-runtime `encodeSignedSiweCookieEdge` of
`siwe-cookie-edge.ts`. -/
def encodeSignedSiweCookieEdge (mac : MacFn) (env : SecretEnv)
    (p : SiweCookiePayload) : List Nat :=
  let payloadB64 := base64urlEncodeEdge (jsonOfPayload p)
  payloadB64 ++ 46 :: signPayloadB64Edge mac (deriveInternalKeyBytesEdge mac env) payloadB64

/-- Split of a byte string at every occurrence of a separator, the behaviour
of the JavaScript `String.split`. -/
def splitOnByte (sep : Nat) : List Nat → List (List Nat)
  | [] => [[]]
  | b :: rest =>
    match splitOnByte sep rest with
    | [] => [[]]
    | h :: t => if b = sep then [] :: h :: t else (b :: h) :: t

/-- The server-runtime `decodeAndVerifySiweCookie` of `siwe-cookie.ts`:
reject an absent or empty value, reject unless splitting on the dot yields
exactly two segments, recompute the signature over the payload segment and
compare, parse the payload JSON (a parse failure is caught and yields
absent), reject if any of `uid`, `addr`, `iat`, `exp` is falsy, reject if
`exp` is not in the future at `now`, and otherwise return the payload. -/
def decodeAndVerifySiweCookie (mac : MacFn) (env : SecretEnv) (now : Nat)
    (value : Option (List Nat)) : Option SiweCookiePayload :=
  match value with
  | none => none
  | some v =>
    if v = [] then none
    else
      match splitOnByte 46 v with
      | [payloadB64, sig] =>
        if sig = signCookie mac env payloadB64 then
          match parsePayloadJson (base64urlDecodeBytes payloadB64) with
          | none => none
          | some p =>
            if p.uid = [] ∨ p.addr = [] ∨ p.iat = 0 ∨ p.exp = 0 then none
            else if p.exp ≤ now then none
            else some p
        else none
      | _ => none

/-- The sandbox-runtime `decodeAndVerifySiweCookieEdge` of
`siwe-cookie-edge.ts`: the same checks with the sandbox signing path. -/
def decodeAndVerifySiweCookieEdge (mac : MacFn) (env : SecretEnv) (now : Nat)
    (value : Option (List Nat)) : Option SiweCookiePayload :=
  match value with
  | none => none
  | some v =>
    if v = [] then none
    else
      match splitOnByte 46 v with
      | [payloadB64, sig] =>
        if sig = signPayloadB64Edge mac (deriveInternalKeyBytesEdge mac env) payloadB64 then
          match parsePayloadJson (base64urlDecodeBytes payloadB64) with
          | none => none
          | some p =>
            if p.uid = [] ∨ p.addr = [] ∨ p.iat = 0 ∨ p.exp = 0 then none
            else if p.exp ≤ now then none
            else some p
        else none
      | _ => none

/-! ### Splitting lemmas for well-formed tokens -/

theorem splitOnByte_no_sep (sep : Nat) (b : List Nat) (hb : ∀ x ∈ b, x ≠ sep) :
    splitOnByte sep b = [b] := by
  induction b with
  | nil => rfl
  | cons x xs ih =>
    have hx : x ≠ sep := hb x (by simp)
    have hxs : ∀ y ∈ xs, y ≠ sep := fun y hy => hb y (by simp [hy])
    simp [splitOnByte, ih hxs, hx]

theorem splitOnByte_two (a b : List Nat) (ha : ∀ x ∈ a, x ≠ 46)
    (hb : ∀ x ∈ b, x ≠ 46) : splitOnByte 46 (a ++ 46 :: b) = [a, b] := by
  induction a with
  | nil => simp [splitOnByte, splitOnByte_no_sep 46 b hb]
  | cons x xs ih =>
    have hx : x ≠ 46 := ha x (by simp)
    have hxs : ∀ y ∈ xs, y ≠ 46 := fun y hy => ha y (by simp [hy])
    simp only [List.cons_append, splitOnByte, List.append_eq]
    rw [ih hxs]
    simp [hx]

theorem base64url_mem_ne_dot (l : List Nat) : ∀ x ∈ base64urlOfBytes l, x ≠ 46 := by
  induction l using base64urlOfBytes.induct with
  | case1 => simp [base64urlOfBytes]
  | case2 b1 =>
    intro x hx
    simp [base64urlOfBytes] at hx
    rcases hx with rfl | rfl <;> exact base64CharUrl_ne_dot _
  | case3 b1 b2 =>
    intro x hx
    simp [base64urlOfBytes] at hx
    rcases hx with rfl | rfl | rfl <;> exact base64CharUrl_ne_dot _
  | case4 b1 b2 b3 rest ih =>
    intro x hx
    simp only [base64urlOfBytes, List.mem_cons] at hx
    rcases hx with rfl | rfl | rfl | rfl | hmem
    · exact base64CharUrl_ne_dot _
    · exact base64CharUrl_ne_dot _
    · exact base64CharUrl_ne_dot _
    · exact base64CharUrl_ne_dot _
    · exact ih x hmem

/-! ### Claim C1: the two runtimes produce byte-identical tokens -/

theorem deriveInternalKeyBytesEdge_eq_server (mac : MacFn) (env : SecretEnv) :
    deriveInternalKeyBytesEdge mac env = getInternalApiSecretKey mac env := rfl

/-- C1. For every session cookie payload and identical secret configuration,
with the two runtimes invoking the same HMAC-SHA256 primitive, the
server-runtime `encodeSignedSiweCookie` and the sandbox-runtime
`encodeSignedSiweCookieEdge` produce byte-identical tokens, so a session
minted in one runtime verifies in the other. -/
theorem encodeSignedSiweCookieEdge_eq_server (mac : MacFn) (env : SecretEnv)
    (p : SiweCookiePayload) :
    encodeSignedSiweCookieEdge mac env p = encodeSignedSiweCookie mac env p := by
  simp only [encodeSignedSiweCookieEdge, encodeSignedSiweCookie,
    signPayloadB64Edge, signCookie, deriveInternalKeyBytesEdge_eq_server,
    base64urlEncodeEdge_eq_node]

/-! ## Round trip and rejection behaviour of the codec -/

theorem signCookie_mem_ne_dot (mac : MacFn) (env : SecretEnv) (input : List Nat) :
    ∀ x ∈ signCookie mac env input, x ≠ 46 := by
  unfold signCookie
  exact base64url_mem_ne_dot _

theorem decode_encode_same_key (mac : MacFn) (env : SecretEnv)
    (p : SiweCookiePayload) (now : Nat)
    (hu : ∀ b ∈ p.uid, b < 256) (ha : ∀ b ∈ p.addr, b < 256)
    (hu0 : p.uid ≠ []) (ha0 : p.addr ≠ []) (hi0 : p.iat ≠ 0) (he0 : p.exp ≠ 0)
    (hnow : now < p.exp) :
    decodeAndVerifySiweCookie mac env now
      (some (encodeSignedSiweCookie mac env p)) = some p := by
  have hsplit := splitOnByte_two (base64urlOfBytes (jsonOfPayload p))
    (signCookie mac env (base64urlOfBytes (jsonOfPayload p)))
    (base64url_mem_ne_dot _) (signCookie_mem_ne_dot mac env _)
  have hparse : parsePayloadJson
      (base64urlDecodeBytes (base64urlOfBytes (jsonOfPayload p))) = some p := by
    rw [base64url_decode_encode _ (jsonOfPayload_lt p hu ha),
      parsePayloadJson_jsonOfPayload p hu ha]
  have hexp : ¬ p.exp ≤ now := by omega
  simp [encodeSignedSiweCookie, decodeAndVerifySiweCookie, hsplit, hparse,
    hu0, ha0, hi0, he0, hexp]

theorem decode_encode_other_key (mac : MacFn) (env env2 : SecretEnv)
    (p : SiweCookiePayload) (now : Nat)
    (hm1 : ∀ b ∈ mac (getInternalApiSecretKey mac env)
      (base64urlOfBytes (jsonOfPayload p)), b < 256)
    (hm2 : ∀ b ∈ mac (getInternalApiSecretKey mac env2)
      (base64urlOfBytes (jsonOfPayload p)), b < 256)
    (hne : mac (getInternalApiSecretKey mac env2)
        (base64urlOfBytes (jsonOfPayload p)) ≠
      mac (getInternalApiSecretKey mac env) (base64urlOfBytes (jsonOfPayload p))) :
    decodeAndVerifySiweCookie mac env2 now
      (some (encodeSignedSiweCookie mac env p)) = none := by
  have hsplit := splitOnByte_two (base64urlOfBytes (jsonOfPayload p))
    (signCookie mac env (base64urlOfBytes (jsonOfPayload p)))
    (base64url_mem_ne_dot _) (signCookie_mem_ne_dot mac env _)
  have hsig : signCookie mac env (base64urlOfBytes (jsonOfPayload p)) ≠
      signCookie mac env2 (base64urlOfBytes (jsonOfPayload p)) := by
    intro hEq
    exact hne (base64url_encode_injective _ _ hm2 hm1
      (by simpa [signCookie] using hEq.symm))
  simp [encodeSignedSiweCookie, decodeAndVerifySiweCookie, hsplit, hsig]

/-- Echo mac used for concrete evaluation: returns the key bytes. -/
def macKeyEcho : MacFn := fun key _ => key

/-- Degenerate mac used for concrete evaluation: constant empty digest. -/
def macConstNil : MacFn := fun _ _ => []

/-- Environment with a 32-byte explicit internal secret of 97-bytes. -/
def envAlpha : SecretEnv := ⟨List.replicate 32 97, [], []⟩

/-- Environment with a different 32-byte explicit internal secret. -/
def envBeta : SecretEnv := ⟨List.replicate 32 98, [], []⟩

/-- Payload whose issued-at field is zero, a falsy value in the runtime. -/
def payloadIatZero : SiweCookiePayload := ⟨[117], [97], 0, 100⟩

/-- Well-formed sample payload. -/
def payloadSample : SiweCookiePayload := ⟨[117], [97], 1, 100⟩

/-- C2 counterexample. As stated, the round-trip claim is false on the code:
the payload with `iat = 0` encodes under a fixed key and then decodes to
absent (the runtime treats a zero `iat` as a missing field), and with the
degenerate mac the token produced under `envAlpha` decodes successfully
under the different key configuration `envBeta`, so neither the unrestricted
round trip nor the unconditional key-separation half holds as stated. -/
theorem cookie_roundtrip_counterexample :
    decodeAndVerifySiweCookie macKeyEcho envAlpha 0
      (some (encodeSignedSiweCookie macKeyEcho envAlpha payloadIatZero)) = none ∧
    payloadIatZero.iat = 0 ∧
    envAlpha ≠ envBeta ∧
    decodeAndVerifySiweCookie macConstNil envBeta 0
      (some (encodeSignedSiweCookie macConstNil envAlpha payloadSample)) =
      some payloadSample := by
  refine ⟨by decide, rfl, by decide, by decide⟩

/-- C2 (amended). For every payload whose `uid` and `addr` are non-empty
byte strings and whose `iat` and `exp` are non-zero, decoded at a time
before `exp`, the codec round-trips under the same key configuration; and
decoding under a different key configuration returns absent whenever the
HMAC digests the two configurations assign to the payload segment differ
(byte-valued digests assumed, true of HMAC-SHA256). -/
theorem cookie_roundtrip :
    (∀ (mac : MacFn) (env : SecretEnv) (p : SiweCookiePayload) (now : Nat),
      (∀ b ∈ p.uid, b < 256) → (∀ b ∈ p.addr, b < 256) →
      p.uid ≠ [] → p.addr ≠ [] → p.iat ≠ 0 → p.exp ≠ 0 → now < p.exp →
      decodeAndVerifySiweCookie mac env now
        (some (encodeSignedSiweCookie mac env p)) = some p) ∧
    (∀ (mac : MacFn) (env env2 : SecretEnv) (p : SiweCookiePayload) (now : Nat),
      (∀ b ∈ mac (getInternalApiSecretKey mac env)
        (base64urlOfBytes (jsonOfPayload p)), b < 256) →
      (∀ b ∈ mac (getInternalApiSecretKey mac env2)
        (base64urlOfBytes (jsonOfPayload p)), b < 256) →
      mac (getInternalApiSecretKey mac env2)
          (base64urlOfBytes (jsonOfPayload p)) ≠
        mac (getInternalApiSecretKey mac env)
          (base64urlOfBytes (jsonOfPayload p)) →
      decodeAndVerifySiweCookie mac env2 now
        (some (encodeSignedSiweCookie mac env p)) = none) :=
  ⟨fun mac env p now hu ha hu0 ha0 hi0 he0 hnow =>
    decode_encode_same_key mac env p now hu ha hu0 ha0 hi0 he0 hnow,
   fun mac env env2 p now hm1 hm2 hne =>
    decode_encode_other_key mac env env2 p now hm1 hm2 hne⟩

/-- C2 witness: the round trip and the key separation at concrete inputs. -/
theorem cookie_roundtrip_witness :
    decodeAndVerifySiweCookie macKeyEcho envAlpha 3
      (some (encodeSignedSiweCookie macKeyEcho envAlpha payloadSample)) =
      some payloadSample ∧
    decodeAndVerifySiweCookie macKeyEcho envBeta 3
      (some (encodeSignedSiweCookie macKeyEcho envAlpha payloadSample)) = none :=
  ⟨cookie_roundtrip.1 macKeyEcho envAlpha payloadSample 3
      (by decide) (by decide) (by decide) (by decide) (by decide) (by decide)
      (by decide),
   cookie_roundtrip.2 macKeyEcho envAlpha envBeta payloadSample 3
      (by decide) (by decide) (by decide)⟩

/-- C8. The cookie verify function is total by construction (every input
maps to a payload or absent; the runtime try/catch is modelled by the
parser returning absent) and returns absent whenever: the token does not
split into exactly two dot-separated segments; the recomputed signature
differs from the token's signature segment; the payload fails to parse or
any required field is falsy (empty `uid` or `addr`, zero `iat` or `exp`);
or the expiry is not in the future even with a correct signature. -/
theorem decodeAndVerifySiweCookie_rejections :
    (∀ (mac : MacFn) (env : SecretEnv) (now : Nat) (v : List Nat),
      (splitOnByte 46 v).length ≠ 2 →
      decodeAndVerifySiweCookie mac env now (some v) = none) ∧
    (∀ (mac : MacFn) (env : SecretEnv) (now : Nat) (v pb sg : List Nat),
      splitOnByte 46 v = [pb, sg] → sg ≠ signCookie mac env pb →
      decodeAndVerifySiweCookie mac env now (some v) = none) ∧
    (∀ (mac : MacFn) (env : SecretEnv) (now : Nat) (v pb sg : List Nat),
      splitOnByte 46 v = [pb, sg] →
      (parsePayloadJson (base64urlDecodeBytes pb) = none ∨
        ∃ p, parsePayloadJson (base64urlDecodeBytes pb) = some p ∧
          (p.uid = [] ∨ p.addr = [] ∨ p.iat = 0 ∨ p.exp = 0)) →
      decodeAndVerifySiweCookie mac env now (some v) = none) ∧
    (∀ (mac : MacFn) (env : SecretEnv) (now : Nat) (v pb sg : List Nat)
      (p : SiweCookiePayload),
      splitOnByte 46 v = [pb, sg] →
      parsePayloadJson (base64urlDecodeBytes pb) = some p → p.exp ≤ now →
      decodeAndVerifySiweCookie mac env now (some v) = none) := by
  have hvne : ∀ (v pb sg : List Nat), splitOnByte 46 v = [pb, sg] → v ≠ [] := by
    intro v pb sg hsp hv
    subst hv
    simp [splitOnByte] at hsp
  refine ⟨?_, ?_, ?_, ?_⟩
  · intro mac env now v hlen
    by_cases hv : v = []
    · simp [decodeAndVerifySiweCookie, hv]
    cases hsp : splitOnByte 46 v with
    | nil => simp [decodeAndVerifySiweCookie, hv, hsp]
    | cons a t =>
      cases t with
      | nil => simp [decodeAndVerifySiweCookie, hv, hsp]
      | cons b t2 =>
        cases t2 with
        | nil => exact absurd (by simp [hsp]) hlen
        | cons c t3 => simp [decodeAndVerifySiweCookie, hv, hsp]
  · intro mac env now v pb sg hsp hne
    simp [decodeAndVerifySiweCookie, hvne v pb sg hsp, hsp, hne]
  · intro mac env now v pb sg hsp hbad
    rcases hbad with hnone | ⟨p, hsome, hfalsy⟩
    · by_cases hsg : sg = signCookie mac env pb
      · simp [decodeAndVerifySiweCookie, hvne v pb sg hsp, hsp, hsg, hnone]
      · simp [decodeAndVerifySiweCookie, hvne v pb sg hsp, hsp, hsg]
    · by_cases hsg : sg = signCookie mac env pb
      · simp [decodeAndVerifySiweCookie, hvne v pb sg hsp, hsp, hsg, hsome, hfalsy]
      · simp [decodeAndVerifySiweCookie, hvne v pb sg hsp, hsp, hsg]
  · intro mac env now v pb sg p hsp hsome hexp
    by_cases hsg : sg = signCookie mac env pb
    · by_cases hfalsy : p.uid = [] ∨ p.addr = [] ∨ p.iat = 0 ∨ p.exp = 0
      · simp [decodeAndVerifySiweCookie, hvne v pb sg hsp, hsp, hsg, hsome, hfalsy]
      · simp [decodeAndVerifySiweCookie, hvne v pb sg hsp, hsp, hsg, hsome, hfalsy,
          hexp]
    · simp [decodeAndVerifySiweCookie, hvne v pb sg hsp, hsp, hsg]

/-- C8 witness: the four rejection modes at concrete tokens: a dotless
token, a token with a wrong signature, a well-signed token whose payload
does not parse, and a well-signed well-formed token decoded at its expiry
instant. -/
theorem decodeAndVerifySiweCookie_rejections_witness :
    decodeAndVerifySiweCookie macConstNil envAlpha 0 (some [65]) = none ∧
    decodeAndVerifySiweCookie macConstNil envAlpha 0 (some [65, 46, 66]) = none ∧
    decodeAndVerifySiweCookie macConstNil envAlpha 0 (some [65, 46]) = none ∧
    decodeAndVerifySiweCookie macConstNil envAlpha 100
      (some (encodeSignedSiweCookie macConstNil envAlpha payloadSample)) = none :=
  ⟨decodeAndVerifySiweCookie_rejections.1 macConstNil envAlpha 0 [65] (by decide),
   decodeAndVerifySiweCookie_rejections.2.1 macConstNil envAlpha 0 [65, 46, 66]
     [65] [66] (by decide) (by decide),
   decodeAndVerifySiweCookie_rejections.2.2.1 macConstNil envAlpha 0 [65, 46]
     [65] [] (by decide) (Or.inl (by decide)),
   decodeAndVerifySiweCookie_rejections.2.2.2 macConstNil envAlpha 100
     (encodeSignedSiweCookie macConstNil envAlpha payloadSample)
     (base64urlOfBytes (jsonOfPayload payloadSample))
     (signCookie macConstNil envAlpha (base64urlOfBytes (jsonOfPayload payloadSample)))
     payloadSample (by decide) (by decide) (by decide)⟩

/-! ## The session reconciler

`getSession` from the auth module: try the federated provider first and
return its session unmodified whenever it carries a non-empty user id;
otherwise read the `siwe_session` cookie from the request cookie header,
verify it with the codec, and build a wallet session in the federated
shape. Dates are modelled as epoch milliseconds. -/

/-- The user half of a normalized session. -/
structure SessionUser where
  id : List Nat
  email : List Nat
  name : List Nat
  image : Option (List Nat)
  emailVerified : Bool
deriving DecidableEq

/-- The session half of a normalized session. -/
structure SessionInfo where
  id : List Nat
  userId : List Nat
  expiresAtMs : Nat
  token : List Nat
  createdAtMs : Nat
  updatedAtMs : Nat
deriving DecidableEq

/-- The normalized session shape shared by both origins. -/
structure NormalizedSession where
  user : SessionUser
  session : SessionInfo
deriving DecidableEq

/-- Whitespace test matching the JavaScript `trim`. -/
def isWhitespaceByte (b : Nat) : Bool := b = 32 || b = 9 || b = 10 || b = 13

/-- Trim of leading and trailing whitespace. -/
def trimBytes (l : List Nat) : List Nat :=
  ((l.dropWhile isWhitespaceByte).reverse.dropWhile isWhitespaceByte).reverse

/-- Byte form of `siwe_session=`. -/
def siweCookiePrefix : List Nat :=
  [115, 105, 119, 101, 95, 115, 101, 115, 115, 105, 111, 110, 61]

/-- Byte form of `siwe_session`. -/
def siweSessionName : List Nat :=
  [115, 105, 119, 101, 95, 115, 101, 115, 115, 105, 111, 110]

/-- Prefix test on byte strings. -/
def startsWithBytes (pre l : List Nat) : Bool := decide (l.take pre.length = pre)

/-- The wallet session object `getSession` builds from a verified cookie
payload: the synthetic `@wallet.user` email, the truncated display name
with a UTF-8 ellipsis, and second-to-millisecond date conversion. -/
def walletSessionOfPayload (p : SiweCookiePayload) : NormalizedSession :=
  ⟨⟨p.uid,
    p.addr ++ [64, 119, 97, 108, 108, 101, 116, 46, 117, 115, 101, 114],
    [87, 97, 108, 108, 101, 116, 32] ++ p.addr.take 6 ++
      [226, 128, 166] ++ p.addr.drop (p.addr.length - 4),
    none,
    true⟩,
   ⟨[115, 105, 119, 101, 95] ++ p.uid,
    p.uid,
    p.exp * 1000,
    siweSessionName,
    p.iat * 1000,
    p.iat * 1000⟩⟩

/-- The cookie-header fallback path of `getSession`: split the header on
semicolons, trim, find the `siwe_session=` cookie, take the segment after
the first equals sign, verify it, and require a truthy `uid`. -/
def siweSessionFallback (mac : MacFn) (env : SecretEnv) (now : Nat)
    (cookieHeader : Option (List Nat)) : Option NormalizedSession :=
  match cookieHeader with
  | none => none
  | some ch =>
    if ch = [] then none
    else
      match ((splitOnByte 59 ch).map trimBytes).find?
          (fun c => startsWithBytes siweCookiePrefix c) with
      | none => none
      | some c =>
        match decodeAndVerifySiweCookie mac env now ((splitOnByte 61 c).get? 1) with
        | none => none
        | some p => if p.uid ≠ [] then some (walletSessionOfPayload p) else none

/-- The reconciler `getSession`: the federated session wins whenever it has
a non-empty user id; otherwise the SIWE cookie fallback runs. -/
def getSession (mac : MacFn) (env : SecretEnv) (now : Nat)
    (betterAuthSession : Option NormalizedSession)
    (cookieHeader : Option (List Nat)) : Option NormalizedSession :=
  match betterAuthSession with
  | some s =>
    if s.user.id ≠ [] then some s else siweSessionFallback mac env now cookieHeader
  | none => siweSessionFallback mac env now cookieHeader

/-- C6. Whenever the federated provider returns a session with a non-empty
user identifier, `getSession` returns that session unmodified, regardless
of any wallet cookie present in the request, valid or not. -/
theorem getSession_federated_priority (mac : MacFn) (env : SecretEnv) (now : Nat)
    (fed : NormalizedSession) (cookieHeader : Option (List Nat))
    (h : fed.user.id ≠ []) :
    getSession mac env now (some fed) cookieHeader = some fed := by
  simp [getSession, h]

/-- Federated session for identity A used in the C6 witness. -/
def fedSessionA : NormalizedSession :=
  ⟨⟨[65], [97, 64, 98], [65], none, true⟩,
   ⟨[115], [65], 99, [116], 1, 1⟩⟩

/-- Cookie header carrying a validly signed wallet cookie for the distinct
identity of `payloadSample`. -/
def cookieHeaderB : List Nat :=
  siweCookiePrefix ++ encodeSignedSiweCookie macKeyEcho envAlpha payloadSample

/-- C6 witness: with a federated session for identity A and a valid signed
wallet cookie for identity B simultaneously present (the second conjunct
checks the cookie alone does produce a wallet session), `getSession`
returns identity A. -/
theorem getSession_federated_priority_witness :
    getSession macKeyEcho envAlpha 3 (some fedSessionA) (some cookieHeaderB) =
      some fedSessionA ∧
    siweSessionFallback macKeyEcho envAlpha 3 (some cookieHeaderB) =
      some (walletSessionOfPayload payloadSample) :=
  ⟨getSession_federated_priority macKeyEcho envAlpha 3 fedSessionA
      (some cookieHeaderB) (by decide),
   by decide⟩

/-! ## The handshake verify endpoint

The `POST` handler of the SIWE verify route: parse the body, verify the
signed message against the literal request host, consume the nonce when a
shared store is configured, lowercase the address, upsert the user and mint
the session cookie. The external `siwe` library verification is modelled at
its boundary: it succeeds exactly when the address recovered from the
signature equals the claimed address and the message domain equals the
verifier's domain argument. -/

/-- Parsed fields of the structured challenge message. -/
structure SiweParsedMessage where
  address : List Nat
  domain : List Nat
  nonce : List Nat
deriving DecidableEq

/-- A verify request as the handler sees it: body presence flags, the parsed
message, the address recovered from the signature by the external library
(absent when recovery fails), and the literal request host. -/
structure VerifyRequest where
  hasMessage : Bool
  hasSignature : Bool
  msg : SiweParsedMessage
  recovered : Option (List Nat)
  host : List Nat
deriving DecidableEq

/-- A row of the user table: id and unique wallet address. -/
structure UserRecord where
  id : List Nat
  walletAddress : List Nat
deriving DecidableEq

/-- Byte form of the response body `Missing message or signature`. -/
def bodyMissingMessage : List Nat :=
  [77, 105, 115, 115, 105, 110, 103, 32, 109, 101, 115, 115, 97, 103, 101,
   32, 111, 114, 32, 115, 105, 103, 110, 97, 116, 117, 114, 101]

/-- Byte form of the response body `Verification failed`, the handler's
catch-all response. -/
def bodyVerificationFailed : List Nat :=
  [86, 101, 114, 105, 102, 105, 99, 97, 116, 105, 111, 110, 32, 102, 97,
   105, 108, 101, 100]

/-- Byte form of the response body `Nonce expired/used`. -/
def bodyNonceExpired : List Nat :=
  [78, 111, 110, 99, 101, 32, 101, 120, 112, 105, 114, 101, 100, 47, 117,
   115, 101, 100]

/-- Byte form of the response body `No address`. -/
def bodyNoAddress : List Nat := [78, 111, 32, 97, 100, 100, 114, 101, 115, 115]

/-- Byte form of the success acknowledgment body. -/
def bodyOk : List Nat := [111, 107]

/-- ASCII lowercasing of one byte, the `toLowerCase` on addresses. -/
def lowercaseByte (b : Nat) : Nat := if 65 ≤ b ∧ b ≤ 90 then b + 32 else b

/-- ASCII lowercasing of a byte string. -/
def lowercaseBytes (l : List Nat) : List Nat := l.map lowercaseByte

/-- Everything the handler produced: the response, the nonce-store state
afterwards (tracking the one nonce of interest), the user table afterwards,
and the cookie payload set on the response, if any. -/
structure VerifyOutcome where
  status : Nat
  body : List Nat
  nonceStore : Bool
  users : List UserRecord
  cookiePayload : Option SiweCookiePayload
deriving DecidableEq

/-- The external `siwe.verify({signature, domain})` boundary: verification
succeeds iff the recovered signer equals the claimed address and the
message domain equals the domain argument (the handler passes the literal
request host). The handler passes no `suppressExceptions` option, and under
the library default a failed verification rejects the promise instead of
resolving with a failure flag, so on failure control transfers to the
handler's catch block; the in-source `if (!result.success)` guard answering
401 is unreachable. -/
def siweVerifySuccess (req : VerifyRequest) : Bool :=
  (req.recovered == some req.msg.address) && (req.msg.domain == req.host)

/-- The `POST` handler of the verify route. `redisConfigured` is whether a
shared nonce store is configured, `noncePresent` whether the message's
nonce is currently in that store, `now` the current epoch second, and
`freshUserId` the generated id used when a new user row is inserted. A
failed `siwe.verify` throws and is answered by the catch block with the
500 `Verification failed` response. -/
def postVerify (req : VerifyRequest) (redisConfigured noncePresent : Bool)
    (users : List UserRecord) (now : Nat) (freshUserId : List Nat) : VerifyOutcome :=
  if ¬ req.hasMessage ∨ ¬ req.hasSignature then
    ⟨400, bodyMissingMessage, noncePresent, users, none⟩
  else if ¬ siweVerifySuccess req then
    ⟨500, bodyVerificationFailed, noncePresent, users, none⟩
  else if redisConfigured ∧ ¬ noncePresent then
    ⟨401, bodyNonceExpired, noncePresent, users, none⟩
  else
    let store2 := if redisConfigured then false else noncePresent
    let address := lowercaseBytes req.msg.address
    if address = [] then ⟨400, bodyNoAddress, store2, users, none⟩
    else
      match users.find? (fun u => u.walletAddress == address) with
      | some u => ⟨200, bodyOk, store2, users, some ⟨u.id, address, now, now + 86400⟩⟩
      | none =>
        ⟨200, bodyOk, store2, users ++ [⟨freshUserId, address⟩],
         some ⟨freshUserId, address, now, now + 86400⟩⟩

/-! ### Claim C9: an invalid signature has no side effects -/

/-- C9. When the recovered signer differs from the claimed address, the
library verification throws and the handler answers the catch response
(500, `Verification failed`) before touching anything: the nonce store, the
user table and the response cookie are all untouched. -/
theorem postVerify_invalid_signature_no_effects (req : VerifyRequest)
    (redisConfigured noncePresent : Bool) (users : List UserRecord)
    (now : Nat) (freshUserId : List Nat)
    (hm : req.hasMessage = true) (hs : req.hasSignature = true)
    (hrec : req.recovered ≠ some req.msg.address) :
    postVerify req redisConfigured noncePresent users now freshUserId =
      ⟨500, bodyVerificationFailed, noncePresent, users, none⟩ := by
  have hv : siweVerifySuccess req = false := by
    simp [siweVerifySuccess, hrec]
  simp [postVerify, hm, hs, hv]

/-- Request whose signature recovers a signer other than the claimed
address. -/
def reqSigMismatch : VerifyRequest :=
  ⟨true, true, ⟨[97], [104], [110]⟩, some [98], [104]⟩

/-- C9 witness: the mismatched-signer request leaves a populated store and
user table unchanged and sets no cookie. -/
theorem postVerify_invalid_signature_no_effects_witness :
    postVerify reqSigMismatch true true [⟨[120], [122]⟩] 7 [121] =
      ⟨500, bodyVerificationFailed, true, [⟨[120], [122]⟩], none⟩ :=
  postVerify_invalid_signature_no_effects reqSigMismatch true true
    [⟨[120], [122]⟩] 7 [121] rfl rfl (by decide)

/-! ### Claim C7: distinguishability of failure responses -/

/-- Request that passes signature and domain checks. -/
def reqAllValid : VerifyRequest :=
  ⟨true, true, ⟨[97], [104], [110]⟩, some [97], [104]⟩

/-- Request with a domain different from the request host but a correctly
recovered signer. -/
def reqDomainMismatch : VerifyRequest :=
  ⟨true, true, ⟨[97], [100], [110]⟩, some [97], [104]⟩

/-- C7 counterexample. An invalid signature (a thrown library verification
answered by the catch with 500 `Verification failed`) and a replayed nonce
(401 `Nonce expired/used`) produce responses differing in both status and
body, so the failure responses are not indistinguishable as claimed. -/
theorem verify_responses_counterexample :
    (postVerify reqSigMismatch true true [] 0 [120]).status = 500 ∧
    (postVerify reqAllValid true false [] 0 [120]).status = 401 ∧
    (postVerify reqSigMismatch true true [] 0 [120]).body ≠
      (postVerify reqAllValid true false [] 0 [120]).body := by
  refine ⟨rfl, rfl, by decide⟩

/-- C7 (amended). An invalid signature and a domain mismatch both make the
library verification throw and collapse to the identical catch response,
500 `Verification failed`, so those two failures are indistinguishable from
one another; a replayed or expired nonce instead answers 401
`Nonce expired/used`, distinguishable from them in both status and body. -/
theorem verify_responses_generic :
    (∀ (req : VerifyRequest) (rc np : Bool) (users : List UserRecord)
      (now : Nat) (fid : List Nat),
      req.hasMessage = true → req.hasSignature = true →
      req.recovered ≠ some req.msg.address →
      postVerify req rc np users now fid =
        ⟨500, bodyVerificationFailed, np, users, none⟩) ∧
    (∀ (req : VerifyRequest) (rc np : Bool) (users : List UserRecord)
      (now : Nat) (fid : List Nat),
      req.hasMessage = true → req.hasSignature = true →
      req.msg.domain ≠ req.host →
      postVerify req rc np users now fid =
        ⟨500, bodyVerificationFailed, np, users, none⟩) ∧
    (∀ (req : VerifyRequest) (np : Bool) (users : List UserRecord)
      (now : Nat) (fid : List Nat),
      req.hasMessage = true → req.hasSignature = true →
      siweVerifySuccess req = true → np = false →
      postVerify req true np users now fid =
        ⟨401, bodyNonceExpired, np, users, none⟩) ∧
    bodyVerificationFailed ≠ bodyNonceExpired := by
  refine ⟨?_, ?_, ?_, by decide⟩
  · intro req rc np users now fid hm hs hrec
    have hv : siweVerifySuccess req = false := by
      simp [siweVerifySuccess, hrec]
    simp [postVerify, hm, hs, hv]
  · intro req rc np users now fid hm hs hdom
    have hv : siweVerifySuccess req = false := by
      simp [siweVerifySuccess, hdom]
    simp [postVerify, hm, hs, hv]
  · intro req np users now fid hm hs hv hnp
    subst hnp
    simp [postVerify, hm, hs, hv]

/-- C7 witness: the three failure classes at concrete requests: signature
mismatch, domain mismatch, and nonce replay. -/
theorem verify_responses_generic_witness :
    postVerify reqSigMismatch true true [] 0 [120] =
      ⟨500, bodyVerificationFailed, true, [], none⟩ ∧
    postVerify reqDomainMismatch true true [] 0 [120] =
      ⟨500, bodyVerificationFailed, true, [], none⟩ ∧
    postVerify reqAllValid true false [] 0 [120] =
      ⟨401, bodyNonceExpired, false, [], none⟩ :=
  ⟨verify_responses_generic.1 reqSigMismatch true true [] 0 [120]
      rfl rfl (by decide),
   verify_responses_generic.2.1 reqDomainMismatch true true [] 0 [120]
      rfl rfl (by decide),
   verify_responses_generic.2.2.1 reqAllValid false [] 0 [120]
      rfl rfl (by decide) rfl⟩

/-! ## The nonce consumption procedure

The verify handler consumes a nonce with two separate store commands: a
`GET` observing presence, an early 401 return when absent, then a `DEL`.
The machine below runs two concurrent requests racing on the same nonce,
at the granularity of those primitive commands; the store is the presence
bit of that nonce. -/

/-- One request's progress through the consumption code: program counter
(0 before the `GET`, 1 between `GET` and `DEL`, 2 finished), the observed
presence, and whether the request went on to mint a session. -/
structure NonceThread where
  pc : Nat
  existed : Bool
  succeeded : Bool
deriving DecidableEq

/-- A request before its first store command. -/
def nonceThreadInit : NonceThread := ⟨0, false, false⟩

/-- One primitive step of one request: the `GET`, then either the `DEL`
and success or the early 401 return. -/
def stepNonceThread (store : Bool) (t : NonceThread) : Bool × NonceThread :=
  match t.pc with
  | 0 => (store, ⟨1, store, t.succeeded⟩)
  | 1 =>
    if t.existed then (false, ⟨2, t.existed, true⟩)
    else (store, ⟨2, t.existed, false⟩)
  | _ => (store, t)

/-- Interleaved execution of two requests under a schedule: `false` steps
the first request, `true` the second. -/
def runNonceSchedule : List Bool → Bool → NonceThread → NonceThread →
    Bool × NonceThread × NonceThread
  | [], store, t1, t2 => (store, t1, t2)
  | pick :: rest, store, t1, t2 =>
    if pick then
      let s := stepNonceThread store t2
      runNonceSchedule rest s.1 t1 s.2
    else
      let s := stepNonceThread store t1
      runNonceSchedule rest s.1 s.2 t2

/-- C3. The consumption is a separate read followed by a delete, not an
atomic exists-and-delete: under the schedule that runs both `GET`s before
either `DEL`, both requests observe the nonce as present and both mint a
session; sequential execution behaves as specified, the first consumption
succeeding and the second failing. -/
theorem nonce_consume_not_atomic :
    ((runNonceSchedule [false, true, false, true] true
        nonceThreadInit nonceThreadInit).2.1.succeeded = true ∧
     (runNonceSchedule [false, true, false, true] true
        nonceThreadInit nonceThreadInit).2.2.succeeded = true) ∧
    ((runNonceSchedule [false, false, true, true] true
        nonceThreadInit nonceThreadInit).2.1.succeeded = true ∧
     (runNonceSchedule [false, false, true, true] true
        nonceThreadInit nonceThreadInit).2.2.succeeded = false) := by
  decide

/-! ## The entitlement resolver

`verifyNonFungibleTokenOwnership` of the chain verification module. The
chain is an oracle of read results: `none` models a revert, timeout or
unsupported method (anything the runtime observes as a thrown read). The
result follows the source record shape: `tokenIdentifier` and
`tokenMetadata` are present only on the success path. -/

/-- Read-only chain state as the resolver observes it. -/
structure ChainState where
  balanceOf : List Nat → Option Nat
  tokenOfOwnerByIndex : List Nat → Nat → Option Nat
  ownerOf : Nat → Option (List Nat)
  tokenURI : Nat → Option (List Nat)

/-- The four access tiers, ordered none, standard, premium, enterprise. -/
inductive NftTier
  | none
  | standard
  | premium
  | enterprise
deriving DecidableEq

/-- The resolver result record. -/
structure NonFungibleTokenOwnershipResult where
  hasNonFungibleToken : Bool
  tokenIdentifier : Option Nat
  tier : NftTier
  ownedTokenCount : Nat
  isOwner : Bool
  tokenMetadata : Option (Option (List Nat))
deriving DecidableEq

/-- Tier classification of a token identifier against the configured
enterprise and premium identifier lists, defaulting to standard. -/
def getTierFromTokenIdentifier (premiumIds enterpriseIds : List Nat)
    (t : Nat) : NftTier :=
  if t ∈ enterpriseIds then .enterprise
  else if t ∈ premiumIds then .premium
  else .standard

/-- Step 4 of the resolver: enumerate the first owned token via
`tokenOfOwnerByIndex`, and when that read throws, fall back to probing
`ownerOf(1)` and accepting identifier 1 on an owner match. -/
def resolveTokenIdentifier (chain : ChainState) (wallet : List Nat) : Option Nat :=
  match chain.tokenOfOwnerByIndex wallet 0 with
  | some t => some t
  | none =>
    match chain.ownerOf 1 with
    | some owner =>
      if lowercaseBytes owner = lowercaseBytes wallet then some 1 else none
    | none => none

/-- The resolver: fail closed without a configured contract; a failed
balance read or step-5 owner read propagates to the outer catch as the
`VERIFICATION_FAILED` error; zero balance and an unresolved (or zero,
since the runtime truthiness check conflates 0 with undefined) token
identifier return the negative record; otherwise ownership of the resolved
identifier is re-confirmed and the tier classified. -/
def verifyNonFungibleTokenOwnership (contractConfigured : Bool)
    (premiumIds enterpriseIds : List Nat) (chain : ChainState)
    (wallet : List Nat) : Except Unit NonFungibleTokenOwnershipResult :=
  if ¬ contractConfigured then .error ()
  else
    match chain.balanceOf wallet with
    | none => .error ()
    | some count =>
      if count = 0 then .ok ⟨false, none, .none, 0, false, none⟩
      else
        match resolveTokenIdentifier chain wallet with
        | none => .ok ⟨false, none, .none, count, false, none⟩
        | some t =>
          if t = 0 then .ok ⟨false, none, .none, count, false, none⟩
          else
            match chain.ownerOf t with
            | none => .error ()
            | some owner =>
              if lowercaseBytes owner = lowercaseBytes wallet then
                .ok ⟨true, some t,
                  getTierFromTokenIdentifier premiumIds enterpriseIds t,
                  count, true, some (chain.tokenURI t)⟩
              else .ok ⟨false, none, .none, count, false, none⟩

theorem getTierFromTokenIdentifier_ne_none (premiumIds enterpriseIds : List Nat)
    (t : Nat) : getTierFromTokenIdentifier premiumIds enterpriseIds t ≠ .none := by
  unfold getTierFromTokenIdentifier
  split_ifs <;> simp

/-! ### Claim C10: token identifier zero is treated as unresolved -/

/-- C10. For a wallet with positive balance whose resolved token identifier
is 0, the resolver returns the negative record (no ownership, tier none,
not owner) even when the recorded owner of token 0 is the wallet itself,
because the truthiness test treats the numeric identifier 0 exactly like an
unresolved identifier. -/
theorem resolver_token_zero (premiumIds enterpriseIds : List Nat)
    (chain : ChainState) (wallet : List Nat) (b : Nat) (o : List Nat)
    (hb : chain.balanceOf wallet = some b) (hpos : 0 < b)
    (hres : resolveTokenIdentifier chain wallet = some 0)
    (hown : chain.ownerOf 0 = some o)
    (hmatch : lowercaseBytes o = lowercaseBytes wallet) :
    verifyNonFungibleTokenOwnership true premiumIds enterpriseIds chain wallet =
      .ok ⟨false, none, .none, b, false, none⟩ := by
  have hb0 : ¬ b = 0 := by omega
  simp [verifyNonFungibleTokenOwnership, hb, hb0, hres]

/-- Chain with one token of identifier 0, owned by wallet `[97]` and
enumerated for it at index 0. -/
def chainTokenZero : ChainState :=
  ⟨fun w => if w = [97] then some 1 else some 0,
   fun w i => if w = [97] ∧ i = 0 then some 0 else none,
   fun t => if t = 0 then some [97] else none,
   fun _ => none⟩

/-- C10 witness: on `chainTokenZero`, wallet `[97]` has balance 1, its
first enumerated token is 0, token 0 is recorded as owned by it, and the
resolver still reports no ownership. -/
theorem resolver_token_zero_witness :
    verifyNonFungibleTokenOwnership true [] [] chainTokenZero [97] =
      .ok ⟨false, none, .none, 1, false, none⟩ :=
  resolver_token_zero [] [] chainTokenZero [97] 1 [97] rfl (by decide) rfl rfl rfl

/-! ### Claim C4: ownership gating -/

/-- C4 counterexample. As stated the claim is false on the code: wallet
`[97]` has positive balance 1, its resolved token identifier is 0, and the
recorded owner of that token is the wallet itself, yet the resolver returns
no ownership with tier none rather than ownership with a non-none tier. -/
theorem ownership_gating_counterexample :
    chainTokenZero.balanceOf [97] = some 1 ∧
    resolveTokenIdentifier chainTokenZero [97] = some 0 ∧
    chainTokenZero.ownerOf 0 = some [97] ∧
    verifyNonFungibleTokenOwnership true [] [] chainTokenZero [97] =
      .ok ⟨false, none, .none, 1, false, none⟩ :=
  ⟨rfl, rfl, rfl, rfl⟩

/-- C4 (amended). A wallet with zero balance never resolves ownership (the
resolver returns the negative record immediately), and a wallet with
positive balance whose resolved token identifier is non-zero and whose
recorded owner matches the wallet resolves ownership with a tier among
standard, premium and enterprise. -/
theorem ownership_gating :
    (∀ (premiumIds enterpriseIds : List Nat) (chain : ChainState)
      (wallet : List Nat),
      chain.balanceOf wallet = some 0 →
      verifyNonFungibleTokenOwnership true premiumIds enterpriseIds chain wallet =
        .ok ⟨false, none, .none, 0, false, none⟩) ∧
    (∀ (premiumIds enterpriseIds : List Nat) (chain : ChainState)
      (wallet : List Nat) (b t : Nat) (o : List Nat),
      chain.balanceOf wallet = some b → 0 < b →
      resolveTokenIdentifier chain wallet = some t → t ≠ 0 →
      chain.ownerOf t = some o →
      lowercaseBytes o = lowercaseBytes wallet →
      verifyNonFungibleTokenOwnership true premiumIds enterpriseIds chain wallet =
        .ok ⟨true, some t,
          getTierFromTokenIdentifier premiumIds enterpriseIds t, b, true,
          some (chain.tokenURI t)⟩ ∧
        getTierFromTokenIdentifier premiumIds enterpriseIds t ≠ .none) := by
  constructor
  · intro premiumIds enterpriseIds chain wallet hb
    simp [verifyNonFungibleTokenOwnership, hb]
  · intro premiumIds enterpriseIds chain wallet b t o hb hpos hres ht0 hown hmatch
    have hb0 : ¬ b = 0 := by omega
    refine ⟨?_, getTierFromTokenIdentifier_ne_none _ _ _⟩
    simp [verifyNonFungibleTokenOwnership, hb, hb0, hres, ht0, hown, hmatch]

/-- Chain with one token of identifier 7, owned by wallet `[97]`. -/
def chainTokenSeven : ChainState :=
  ⟨fun w => if w = [97] then some 1 else some 0,
   fun w i => if w = [97] ∧ i = 0 then some 7 else none,
   fun t => if t = 7 then some [97] else none,
   fun _ => none⟩

/-- C4 witness: a zero-balance wallet is denied, and on `chainTokenSeven`
with enterprise identifiers 6 to 10 the owner of token 7 resolves ownership
with the enterprise tier. -/
theorem ownership_gating_witness :
    verifyNonFungibleTokenOwnership true [] [] chainTokenSeven [98] =
      .ok ⟨false, none, .none, 0, false, none⟩ ∧
    verifyNonFungibleTokenOwnership true [1, 2, 3, 4, 5] [6, 7, 8, 9, 10]
        chainTokenSeven [97] =
      .ok ⟨true, some 7, .enterprise, 1, true, some none⟩ :=
  ⟨ownership_gating.1 [] [] chainTokenSeven [98] rfl,
   by
    have h := (ownership_gating.2 [1, 2, 3, 4, 5] [6, 7, 8, 9, 10]
      chainTokenSeven [97] 1 7 [97] rfl (by decide) rfl (by decide) rfl rfl).1
    simpa [getTierFromTokenIdentifier] using h⟩

/-! ## The tier guard

`getCurrentUserContext`, `hasRequiredTier` and `withUserGuard` of the user
context module, together with its private helpers `getResourceUsage` (a
placeholder returning 0 regardless of persisted usage) and
`incrementResourceUsage` (an intentional no-op). -/

/-- The persisted access status values. -/
inductive NftAccessStatus
  | pending
  | verified
  | expired
  | revoked
deriving DecidableEq

/-- The per-tier resource limits object. -/
structure ResourceLimits where
  maxWorkflows : Nat
  maxWorkspaces : Nat
  maxApiCalls : Nat
  maxStorageMB : Nat
  maxAgents : Nat
  maxSchedules : Nat
  maxWebhooks : Nat
deriving DecidableEq

/-- The persisted usage counters object. -/
structure UsageCounters where
  apiCallsThisMonth : Nat
  storageUsedMB : Nat
deriving DecidableEq

/-- The resource categories of the limits object. -/
inductive ResourceKey
  | maxWorkflows
  | maxWorkspaces
  | maxApiCalls
  | maxStorageMB
  | maxAgents
  | maxSchedules
  | maxWebhooks
deriving DecidableEq

/-- The usage categories of the counters object. -/
inductive UsageKey
  | apiCallsThisMonth
  | storageUsedMB
deriving DecidableEq

/-- Field access on the limits object by category. -/
def ResourceLimits.get (l : ResourceLimits) : ResourceKey → Nat
  | .maxWorkflows => l.maxWorkflows
  | .maxWorkspaces => l.maxWorkspaces
  | .maxApiCalls => l.maxApiCalls
  | .maxStorageMB => l.maxStorageMB
  | .maxAgents => l.maxAgents
  | .maxSchedules => l.maxSchedules
  | .maxWebhooks => l.maxWebhooks

/-- The persisted entitlement row for a user. -/
structure NftAccessRecord where
  userId : List Nat
  walletAddress : List Nat
  tokenId : Option Nat
  tier : NftTier
  status : NftAccessStatus
  resourceLimits : ResourceLimits
  currentUsage : UsageCounters
deriving DecidableEq

/-- The context `getCurrentUserContext` returns. -/
structure UserContext where
  userId : List Nat
  walletAddress : List Nat
  tier : NftTier
  status : NftAccessStatus
  limits : ResourceLimits
  usage : UsageCounters
  tokenIdentifier : Option Nat
deriving DecidableEq

/-- The errors the guard throws. -/
inductive GuardError
  | unauthorized
  | nftAccessNotFound
  | nftStatusNotVerified (s : NftAccessStatus)
  | insufficientTier
  | resourceLimitExceeded
deriving DecidableEq

/-- `getCurrentUserContext`: resolve the session, load the entitlement
record, require verified status, return the normalized context. -/
def getCurrentUserContext (sessionUserId : Option (List Nat))
    (access : Option NftAccessRecord) : Except GuardError UserContext :=
  match sessionUserId with
  | none => .error .unauthorized
  | some uid =>
    if uid = [] then .error .unauthorized
    else
      match access with
      | none => .error .nftAccessNotFound
      | some a =>
        if a.status ≠ .verified then .error (.nftStatusNotVerified a.status)
        else .ok ⟨uid, a.walletAddress, a.tier, a.status, a.resourceLimits,
          a.currentUsage, a.tokenId⟩

/-- Position of a tier in the fixed ordering list. -/
def tierIndex : NftTier → Nat
  | .none => 0
  | .standard => 1
  | .premium => 2
  | .enterprise => 3

/-- `hasRequiredTier`: index comparison over the fixed ordering. -/
def hasRequiredTier (userTier required : NftTier) : Bool :=
  tierIndex required ≤ tierIndex userTier

/-- The private `getResourceUsage` helper, verbatim a placeholder: it
returns 0 for every user and resource, ignoring all persisted usage. -/
def getResourceUsage (userId : List Nat) (resource : ResourceKey) : Nat := 0

/-- The private `incrementResourceUsage` helper, verbatim an intentional
no-op: it changes nothing. -/
def incrementResourceUsage (userId : List Nat) (resource : UsageKey) : Unit := ()

/-- The outcome of a guarded call: a denial before the operation ran, a
failure thrown by the operation itself, or the operation's value together
with whether the (no-op) usage increment was invoked afterwards. -/
inductive GuardResult (T : Type)
  | denied (e : GuardError)
  | opFailed
  | ok (value : T) (usageIncrementInvoked : Bool)
deriving DecidableEq

/-- `withUserGuard`: resolve the context, enforce the tier requirement,
enforce the resource limit by comparing the guard's usage read (the
placeholder `getResourceUsage`) against the configured limit, run the
operation, and invoke the usage increment only after it succeeds. -/
def withUserGuard {T : Type} (operation : UserContext → Option T)
    (requireTier : Option (List NftTier)) (checkResource : Option ResourceKey)
    (incrementUsage : Option UsageKey) (sessionUserId : Option (List Nat))
    (access : Option NftAccessRecord) : GuardResult T :=
  match getCurrentUserContext sessionUserId access with
  | .error e => .denied e
  | .ok ctx =>
    let tierOk := match requireTier with
      | none => true
      | some tiers => tiers.any (fun t => hasRequiredTier ctx.tier t)
    if tierOk = false then .denied .insufficientTier
    else
      let resourceOk := match checkResource with
        | none => true
        | some k => decide (getResourceUsage ctx.userId k < ctx.limits.get k)
      if resourceOk = false then .denied .resourceLimitExceeded
      else
        match operation ctx with
        | none => .opFailed
        | some v =>
          match incrementUsage with
          | some k =>
            let _ := incrementResourceUsage ctx.userId k
            .ok v true
          | none => .ok v false

/-- Verified entitlement record at its API-call limit: the limit is 10 and
the persisted usage counter already reads 10. -/
def accessAtLimit : NftAccessRecord :=
  ⟨[117], [97], some 1, .standard, .verified,
   ⟨10, 2, 10, 100, 3, 5, 3⟩, ⟨10, 0⟩⟩

/-- C5. Evaluation of the guard at the failing input of the claim: the
caller's persisted usage counter (10) is at the configured limit (10), yet
the guard runs the wrapped operation and reports success, because its usage
read is the placeholder `getResourceUsage` returning 0 rather than the
persisted counter, so the comparison performed is 0 against 10; and since
the increment helper is a no-op, a successful operation does not consume
quota either. A failed operation is reported as the operation's own
failure, not a denial. -/
theorem tier_guard_placeholder_usage :
    accessAtLimit.currentUsage.apiCallsThisMonth = 10 ∧
    accessAtLimit.resourceLimits.maxApiCalls = 10 ∧
    withUserGuard (fun _ => some 42) none (some .maxApiCalls)
      (some .apiCallsThisMonth) (some [117]) (some accessAtLimit) =
      .ok 42 true ∧
    withUserGuard (fun _ => (none : Option Nat)) none (some .maxApiCalls)
      (some .apiCallsThisMonth) (some [117]) (some accessAtLimit) =
      .opFailed :=
  ⟨rfl, rfl, rfl, rfl⟩

end RefiStudio
